import Mathlib

/-!
Verification development for the fb-chatbot service: a Facebook Messenger
webhook receiver persisting conversation state in a document store, replying
either via a generative call (src/index.js) or via static keyword rules
(the keyword-mode revision), plus an admin REST surface.

JavaScript strings are modelled as lists of characters (`Str`), and the
JS string operations used by the source (toLowerCase, trim, includes,
split, join, truthiness) are embedded as executable functions on `Str`.
MongoDB collections are modelled as Lean lists of records; `findOne`
becomes `List.find?` on the filter predicate, `updateOne` updates the
first matching record, and upserts append a record built from the filter
equality fields, the set fields, and the set-on-insert fields.
-/

/-- A JavaScript string, as its sequence of characters. -/
abbrev Str := List Char

/-- JS truthiness of a string: every string except the empty one is truthy. -/
def jsTruthy (s : Str) : Bool := !s.isEmpty

/-- JS truthiness of a value that is either a string or null/undefined. -/
def optTruthy : Option Str → Bool
  | some s => jsTruthy s
  | none => false

/-- The JS expression `a || b` on two nullable strings. -/
def jsOrStr (a b : Option Str) : Option Str :=
  if optTruthy a then a else b

/-- `String.prototype.toLowerCase` (ASCII range, which covers all data the
service compares case-insensitively). -/
def jsToLower (s : Str) : Str := s.map Char.toLower

/-- `String.prototype.trim`: strip whitespace from both ends. -/
def jsTrim (s : Str) : Str :=
  ((s.dropWhile Char.isWhitespace).reverse.dropWhile Char.isWhitespace).reverse

/-- Does `s` start with the sequence `pat`? -/
def seqStartsWith : Str → Str → Bool
  | _, [] => true
  | [], _ :: _ => false
  | c :: s, p :: ps => c == p && seqStartsWith s ps

/-- `String.prototype.includes`: substring containment. -/
def jsIncludes : Str → Str → Bool
  | [], pat => pat.isEmpty
  | c :: t, pat => seqStartsWith (c :: t) pat || jsIncludes t pat

/-- Worker for `jsSplit`: scan the string left to right, cutting at each
non-overlapping occurrence of the (nonempty) separator. `acc` holds the
current chunk reversed. The fuel argument only forces structural
recursion; every step strictly shortens the string, so fuel equal to the
string length never runs out. -/
def splitGo : Nat → Str → Str → Str → List Str
  | _, _, [], acc => [acc.reverse]
  | 0, _, _, acc => [acc.reverse]
  | fuel + 1, sep, c :: rest, acc =>
    if seqStartsWith (c :: rest) sep && !sep.isEmpty then
      acc.reverse :: splitGo fuel sep (rest.drop (sep.length - 1)) []
    else
      splitGo fuel sep rest (c :: acc)

/-- `String.prototype.split` with a nonempty string separator. -/
def jsSplit (s sep : Str) : List Str := splitGo s.length sep s []

/-- `Array.prototype.join` with a string separator. -/
def jsJoin (sep : Str) : List Str → Str
  | [] => []
  | [x] => x
  | x :: y :: rest => x ++ sep ++ jsJoin sep (y :: rest)

/-- The rule delimiter `"->"`. -/
def arrowDelim : Str := ("->").toList

/-- One newline character, the rule-line separator. -/
def nlChar : Char := Char.ofNat 10

/-- The sender role tag for inbound end-user messages. -/
def roleUser : Str := ("user").toList

/-- The sender role tag for generative automated replies. -/
def roleAi : Str := ("ai").toList

/-- The sender role tag for keyword-rule automated replies. -/
def roleBot : Str := ("bot").toList

/-- The sender role tag for manual human-operator replies. -/
def roleAdmin : Str := ("admin").toList

/-- Parsing of one keyword-rule line, as done inside `getKeywordReply`:
`const parts = line.split('->'); if (parts.length < 2) continue;
const keyword = parts[0].trim().toLowerCase();
const response = parts.slice(1).join('->').trim();`. -/
def parseRuleLine (line : Str) : Option (Str × Str) :=
  match jsSplit line arrowDelim with
  | p0 :: p1 :: ps => some (jsToLower (jsTrim p0), jsTrim (jsJoin arrowDelim (p1 :: ps)))
  | _ => none

/-- Is the parsed keyword the fallback sentinel `default` or `else`? -/
def isSentinelKw (k : Str) : Bool :=
  k == ("default").toList || k == ("else").toList

/-- The rule-scanning loop of `getKeywordReply`: walk the lines top to
bottom carrying the declared fallback; a sentinel line replaces the
fallback and continues; the first line whose keyword is contained in the
normalized message breaks the loop with its response. Returns the pair
(matchedResponse, defaultResponse) at loop exit. -/
def scanRules (msg : Str) : List Str → Option Str → Option Str × Option Str
  | [], dflt => (none, dflt)
  | line :: rest, dflt =>
    match parseRuleLine line with
    | none => scanRules msg rest dflt
    | some (k, r) =>
      if isSentinelKw k then scanRules msg rest (some r)
      else if jsIncludes msg k then (some r, dflt)
      else scanRules msg rest dflt

/-- The normalization `userMsg.toLowerCase().trim()` applied to the
inbound text before matching. -/
def normMsg (s : Str) : Str := jsTrim (jsToLower s)

/-- Does this rule line match the message: it parses, its keyword is not a
fallback sentinel, and the keyword is contained in the message? -/
def lineMatches (msg line : Str) : Bool :=
  match parseRuleLine line with
  | none => false
  | some (k, _) => !isSentinelKw k && jsIncludes msg k

/-- `getKeywordReply(userMsg, rulesText)` from the keyword-mode revision:
returns null for falsy rules text, normalizes the message with
`toLowerCase().trim()`, scans the rule lines, and returns
`matchedResponse || defaultResponse`. -/
def getKeywordReply (userMsg rulesText : Str) : Option Str :=
  if !jsTruthy rulesText then none
  else
    let p := scanRules (normMsg userMsg) (jsSplit rulesText [nlChar]) none
    jsOrStr p.1 p.2

/-! ## Data model

MongoDB collections become lists of records. The `Page_ID` field of the
page registry historically holds either a string or a number, so it is
modelled as a tagged value. `lastInteraction` and `userName` are optional
because a record created by the pause-toggle upsert has neither field. -/

/-- A stored `Page_ID` value: either a string or a numeric identifier. -/
inductive BVal where
  | str : Str → BVal
  | num : Nat → BVal
deriving DecidableEq

/-- One record of the `page_tokens` collection: `Page_ID`, `Page_Name`,
`Access_Token`, the legacy lowercase `access_token`, and `System_Prompt`. -/
structure PageDoc where
  pid : BVal
  pageName : Str
  accessToken : Option Str
  accessTokenLC : Option Str
  systemPrompt : Option Str
deriving DecidableEq

/-- One record of the `messages` collection. -/
structure MessageRec where
  pageId : Str
  userId : Str
  sender : Str
  text : Str
  timestamp : Nat
deriving DecidableEq

/-- One record of the `conversation_states` collection. -/
structure ConvState where
  pageId : Str
  userId : Str
  aiPaused : Bool
  lastInteraction : Option Nat
  userName : Option Str
deriving DecidableEq

/-- The three collections of `fb_automation_db`. The message log is kept
most-recent-first; queries that matter sort by timestamp anyway. -/
structure Db where
  pages : List PageDoc
  messages : List MessageRec
  convs : List ConvState
deriving DecidableEq

/-- The database before any request has been handled. -/
def emptyDb : Db := ⟨[], [], []⟩

/-- `findOne({ Page_ID: v })` on the page registry. -/
def findPage (db : Db) (v : BVal) : Option PageDoc :=
  db.pages.find? (fun d => d.pid == v)

/-- The regex test `/^\d+$/` used before a numeric-typed lookup. -/
def isAllDigits (s : Str) : Bool := !s.isEmpty && s.all Char.isDigit

/-- `parseInt` on an all-digits string (exact, ignoring the float rounding
JS would apply beyond 2^53, which no identifier in the claims reaches). -/
def parseDigits (s : Str) : Nat :=
  s.foldl (fun n c => 10 * n + (c.toNat - ('0').toNat)) 0

/-- `toString()` of a stored identifier: strings unchanged, numbers in
decimal. -/
def bvalToStr : BVal → Str
  | .str s => s
  | .num n => (Nat.repr n).toList

/-- `getPageData(pageId)`: first an exact string-typed lookup; on a miss,
if the identifier is all digits, a numeric-typed lookup. -/
def getPageData (db : Db) (pageId : Str) : Option PageDoc :=
  match findPage db (BVal.str pageId) with
  | some d => some d
  | none =>
    if isAllDigits pageId then findPage db (BVal.num (parseDigits pageId))
    else none

/-- The filter `{ pageId: p, userId: u }` on conversation states. -/
def keyMatch (p u : Str) (c : ConvState) : Bool :=
  c.pageId == p && c.userId == u

/-- `findOne({ pageId, userId })` on the conversation-state collection. -/
def findConv (db : Db) (p u : Str) : Option ConvState :=
  db.convs.find? (keyMatch p u)

/-- Mongo `updateOne`: rewrite the first record matching the (page, user)
filter with `f`, leaving everything else alone. -/
def updateFirstConv (convs : List ConvState) (p u : Str) (f : ConvState → ConvState) :
    List ConvState :=
  match convs with
  | [] => []
  | c :: rest =>
    if keyMatch p u c then f c :: rest
    else c :: updateFirstConv rest p u f

/-- The conversation-state upsert performed by `saveMessage`:
`$set { lastInteraction: now (, userName: name)? }` with
`$setOnInsert { aiPaused: false }`. On insert the record is built from
the filter fields, the set fields and the set-on-insert fields. -/
def touchConv (convs : List ConvState) (p u : Str) (nameSet : Option Str) (now : Nat) :
    List ConvState :=
  match convs.find? (keyMatch p u) with
  | some _ =>
    updateFirstConv convs p u (fun c =>
      { c with
        lastInteraction := some now
        userName := match nameSet with | some nm => some nm | none => c.userName })
  | none => convs ++ [⟨p, u, false, some now, nameSet⟩]

/-- `saveMessage(pageId, userId, sender, text, pageToken)`: insert the
message record, then upsert the conversation state. The external
display-name fetch (`getUserProfile`) is attempted exactly when the sender
is the end user, the token is truthy, and no truthy cached name exists;
`nameRes` is the oracle for its outcome (`none` models a failed fetch).
The returned flag records whether the fetch was attempted. -/
def saveMessage (db : Db) (p u sender text : Str) (pageToken nameRes : Option Str)
    (now : Nat) : Db × Bool :=
  let fetch := sender == roleUser && optTruthy pageToken &&
    (match db.convs.find? (keyMatch p u) with
     | none => true
     | some st => !optTruthy st.userName)
  let nameSet := if fetch && optTruthy nameRes then nameRes else none
  (⟨db.pages, ⟨p, u, sender, text, now⟩ :: db.messages, touchConv db.convs p u nameSet now⟩,
   fetch)

/-- `isAiPaused(pageId, userId)`: look the state up and read its pause
flag, defaulting to false when absent; `dbFail` models the lookup
throwing, in which case the catch clause returns false. -/
def isAiPaused (dbFail : Bool) (db : Db) (p u : Str) : Bool :=
  if dbFail then false
  else
    match findConv db p u with
    | some st => st.aiPaused
    | none => false

/-- `POST /api/inbox/toggle-ai`: after the missing-identifier guard,
upsert `{ $set: { aiPaused: paused } }` on the (page, user) filter. An
inserted record has neither `lastInteraction` nor `userName`. -/
def toggleAi (db : Db) (p u : Str) (paused : Bool) : Db :=
  if !jsTruthy p || !jsTruthy u then db
  else
    ⟨db.pages, db.messages,
      match db.convs.find? (keyMatch p u) with
      | some _ => updateFirstConv db.convs p u (fun c => { c with aiPaused := paused })
      | none => db.convs ++ [⟨p, u, paused, none, none⟩]⟩

/-- The `$set` fields of `POST /api/pages`: `Page_Name` always; the
credential only when the submitted token is truthy; the reply
configuration only when `persona` is defined (an empty string counts as
defined). -/
def pageUpdateFields (d : PageDoc) (name : Str) (token persona : Option Str) : PageDoc :=
  { d with
    pageName := name
    accessToken := if optTruthy token then token else d.accessToken
    systemPrompt := match persona with | some p => some p | none => d.systemPrompt }

/-- Mongo `updateOne` on the page registry: rewrite the first record whose
`Page_ID` equals the filter value. -/
def updateFirstPage (pages : List PageDoc) (v : BVal) (f : PageDoc → PageDoc) :
    List PageDoc :=
  match pages with
  | [] => []
  | d :: rest =>
    if d.pid == v then f d :: rest
    else d :: updateFirstPage rest v f

/-- The record a page-registry upsert inserts when the filter misses:
filter identifier plus the `$set` fields. -/
def freshPageDoc (v : BVal) (name : Str) (token persona : Option Str) : PageDoc :=
  ⟨v, name, if optTruthy token then token else none, none, persona⟩

/-- `POST /api/pages` from src/index.js: key the write by the string form
of the identifier, but if no string-keyed record exists and a legacy
numeric-keyed record does, target that numeric-keyed record instead; then
`updateOne` with upsert. -/
def upsertPage (db : Db) (ident : BVal) (name : Str) (token persona : Option Str) : Db :=
  let s := bvalToStr ident
  let filter : BVal :=
    match findPage db (BVal.str s) with
    | some _ => BVal.str s
    | none =>
      if isAllDigits s then
        match findPage db (BVal.num (parseDigits s)) with
        | some _ => BVal.num (parseDigits s)
        | none => BVal.str s
      else BVal.str s
  let pages' :=
    match findPage db filter with
    | some _ => updateFirstPage db.pages filter (fun d => pageUpdateFields d name token persona)
    | none => db.pages ++ [freshPageDoc filter name token persona]
  ⟨pages', db.messages, db.convs⟩

/-- `POST /api/pages` from the revision that always keys the write by the
string form of the identifier (src/unnamed/part_001). -/
def upsertPageStrKey (db : Db) (ident : BVal) (name : Str) (token persona : Option Str) : Db :=
  let s := bvalToStr ident
  let pages' :=
    match findPage db (BVal.str s) with
    | some _ =>
      updateFirstPage db.pages (BVal.str s) (fun d => pageUpdateFields d name token persona)
    | none => db.pages ++ [freshPageDoc (BVal.str s) name token persona]
  ⟨pages', db.messages, db.convs⟩

/-! ## Webhook pipelines

One messaging event with text is processed per call. External effects are
oracles: `nameRes` is the display-name fetch outcome, `aiRes` the
generative call outcome (`none` models a thrown error), `sendOk` whether
the outbound send succeeds, `pauseDbFail` whether the state lookup inside
`isAiPaused` throws. Each pipeline returns the new database together with
the list of attempted outbound sends `(recipient, text)`. -/

/-- Tail of the generative webhook handler (src/index.js) after the
inbound message has been saved: pause gate, token gate, generation,
send, and the save of the automated reply (skipped when the send throws,
since the thrown error aborts the try block). -/
def genAfterSave (pageData : Option PageDoc) (db1 : Db) (pageId senderId : Str)
    (aiRes : Option Str) (sendOk pauseDbFail : Bool) (now : Nat) :
    Db × List (Str × Str) :=
  if isAiPaused pauseDbFail db1 pageId senderId then (db1, [])
  else
    match pageData with
    | none => (db1, [])
    | some d =>
      if !optTruthy d.accessToken then (db1, [])
      else
        match aiRes with
        | none => (db1, [])
        | some aiReply =>
          if sendOk then
            ((saveMessage db1 pageId senderId roleAi aiReply none none now).1,
             [(senderId, aiReply)])
          else (db1, [(senderId, aiReply)])

/-- One messaging event of the generative webhook handler (src/index.js):
self-loop guard, page lookup, unconditional save of the inbound message
(passing `pageData?.Access_Token` for the name fetch), then the reply
stages. -/
def processGenEvent (db : Db) (pageId senderId userMsg : Str) (nameRes aiRes : Option Str)
    (sendOk pauseDbFail : Bool) (now : Nat) : Db × List (Str × Str) :=
  if senderId == pageId then (db, [])
  else
    genAfterSave (getPageData db pageId)
      (saveMessage db pageId senderId roleUser userMsg
        ((getPageData db pageId).bind PageDoc.accessToken) nameRes now).1
      pageId senderId aiRes sendOk pauseDbFail now

/-- The rules text read by the keyword handler:
`pageData.System_Prompt || ""`. -/
def rulesTextOf (d : PageDoc) : Str :=
  match d.systemPrompt with
  | some p => p
  | none => []

/-- Tail of the keyword webhook handler (src/unnamed/part_003) after the
inbound message has been saved: pause gate, token gate, empty-rules gate,
keyword matching, and on a truthy reply the send plus (on success) the
save of the bot reply. -/
def kwAfterSave (d : PageDoc) (accessToken : Option Str) (db1 : Db)
    (pageId senderId userMsg : Str) (sendOk pauseDbFail : Bool) (now : Nat) :
    Db × List (Str × Str) :=
  if isAiPaused pauseDbFail db1 pageId senderId then (db1, [])
  else if optTruthy accessToken then
    if !jsTruthy (rulesTextOf d) then (db1, [])
    else
      match getKeywordReply userMsg (rulesTextOf d) with
      | none => (db1, [])
      | some reply =>
        if !jsTruthy reply then (db1, [])
        else if sendOk then
          ((saveMessage db1 pageId senderId roleBot reply none none now).1,
           [(senderId, reply)])
        else (db1, [(senderId, reply)])
  else (db1, [])

/-- One messaging event of the keyword webhook handler
(src/unnamed/part_003): self-loop guard, page lookup, and — only when the
page is found — save of the inbound message (passing
`Access_Token || access_token`) followed by the reply stages. An event
for an unknown page is dropped before anything is persisted. -/
def processKwEvent (db : Db) (pageId senderId userMsg : Str) (nameRes : Option Str)
    (sendOk pauseDbFail : Bool) (now : Nat) : Db × List (Str × Str) :=
  if senderId == pageId then (db, [])
  else
    match getPageData db pageId with
    | none => (db, [])
    | some d =>
      kwAfterSave d (jsOrStr d.accessToken d.accessTokenLC)
        (saveMessage db pageId senderId roleUser userMsg
          (jsOrStr d.accessToken d.accessTokenLC) nameRes now).1
        pageId senderId userMsg sendOk pauseDbFail now

/-- `POST /api/inbox/reply`: page lookup, token gate, outbound send, and
on success the save of the operator message (a thrown send skips it). -/
def adminReply (db : Db) (pageId userId text : Str) (sendOk : Bool) (now : Nat) : Db :=
  match getPageData db pageId with
  | none => db
  | some d =>
    if !optTruthy d.accessToken then db
    else if sendOk then
      (saveMessage db pageId userId roleAdmin text none none now).1
    else db

/-! ## Reachable states

Every state-mutating entry point of the service, as one operation; a
reachable database is the fold of a list of operations from the empty
database. -/

/-- One state-mutating request. -/
inductive Op where
  | genEvent (pageId senderId userMsg : Str) (nameRes aiRes : Option Str)
      (sendOk pauseDbFail : Bool) (now : Nat)
  | kwEvent (pageId senderId userMsg : Str) (nameRes : Option Str)
      (sendOk pauseDbFail : Bool) (now : Nat)
  | toggle (pageId userId : Str) (paused : Bool)
  | reply (pageId userId text : Str) (sendOk : Bool) (now : Nat)
  | upsert (ident : BVal) (name : Str) (token persona : Option Str)

/-- Apply one request to the database. -/
def stepOp (db : Db) : Op → Db
  | .genEvent p s m nr ar so pf now => (processGenEvent db p s m nr ar so pf now).1
  | .kwEvent p s m nr so pf now => (processKwEvent db p s m nr so pf now).1
  | .toggle p u b => toggleAi db p u b
  | .reply p u t so now => adminReply db p u t so now
  | .upsert i n t pe => upsertPage db i n t pe

/-- The database reached by a sequence of requests from the empty
database. -/
def runOps (ops : List Op) : Db := ops.foldl stepOp emptyDb

/-- Does at least one message record exist for the (page, user) pair? -/
def msgExists (db : Db) (p u : Str) : Bool :=
  db.messages.any (fun m => m.pageId == p && m.userId == u)

/-- Does a conversation-state record exist for the (page, user) pair? -/
def convExists (db : Db) (p u : Str) : Bool :=
  db.convs.any (keyMatch p u)

/-- The stored last-interaction time of a conversation, if any. -/
def lastTouch (db : Db) (p u : Str) : Option Nat :=
  match findConv db p u with
  | some c => c.lastInteraction
  | none => none

/-! ## The invariant and concrete fixtures -/

/-- The one-directional log/state invariant that every operation
preserves: a pair with a logged message has a conversation-state record. -/
def dbInv (db : Db) : Prop :=
  ∀ p u, msgExists db p u = true → convExists db p u = true

/-- Shorthand for a message record. -/
def mkMsg (p u s t : Str) (now : Nat) : MessageRec := ⟨p, u, s, t, now⟩

/-- An apostrophe character (U+0027). -/
def apos : Char := Char.ofNat 39

/-- The fallback text of the demo rules, `I don't understand.`. -/
def dontUnderstand : Str :=
  ("I don").toList ++ [apos] ++ ("t understand.").toList

/-- The demo rules text of the spec:
`price -> 500tk`, `hello -> Hi!`, `default -> I don't understand.`. -/
def rulesDemo : Str :=
  ("price -> 500tk\nhello -> Hi!\ndefault -> I don").toList ++ [apos]
    ++ ("t understand.").toList

/-- Test input `what is the price?`. -/
def msgPriceQ : Str := ("what is the price?").toList

/-- Test input `xyz`. -/
def msgXyz : Str := ("xyz").toList

/-- Rules with the fallback line first and then a rule whose response text
trims to the empty string. -/
def rulesDefaultFirst : Str := ("default -> D\na -> ").toList

/-- Rules with an empty-response rule first and the fallback line after
it. -/
def rulesDefaultLast : Str := ("hi -> \ndefault -> Fallback").toList

/-- Rules declaring the fallback before an empty-response rule. -/
def rulesFallbackFirst : Str := ("default -> Fallback\nhi -> ").toList

/-- Test input `a`. -/
def msgA : Str := ("a").toList

/-- Test input `hi there`. -/
def msgHiThere : Str := ("hi there").toList

/-- Test input `hi`. -/
def msgHi : Str := ("hi").toList

/-- Test input `again`. -/
def msgAgain : Str := ("again").toList

/-- A concrete page identifier. -/
def pgId : Str := ("77").toList

/-- A concrete end-user identifier. -/
def usrId : Str := ("42").toList

/-- A concrete access credential. -/
def tokStr : Str := ("tok").toList

/-- A concrete persona text. -/
def promptStr : Str := ("Be nice").toList

/-- The numeric-looking identifier of the page-lookup example. -/
def bigNumStr : Str := ("100200300").toList

/-- A registry holding one page stored under the numeric-typed identifier
100200300. -/
def dbNumKeyed : Db :=
  ⟨[⟨BVal.num 100200300, ("Shop").toList, some tokStr, none, none⟩], [], []⟩

/-- A registry holding one legacy page keyed by the numeric identifier
100, with a credential and a reply configuration. -/
def dbLegacy : Db :=
  ⟨[⟨BVal.num 100, ("Old").toList, some tokStr, none, some promptStr⟩], [], []⟩

/-- A database with one configured page and one paused conversation. -/
def dbPaused : Db :=
  ⟨[⟨BVal.str pgId, ("Shop").toList, some tokStr, none, some rulesDemo⟩],
   [], [⟨pgId, usrId, true, some 5, none⟩]⟩

/-- A database with one configured page and no conversations. -/
def dbPageOnly : Db :=
  ⟨[⟨BVal.str pgId, ("Shop").toList, some tokStr, none, some rulesDemo⟩], [], []⟩

/-- A database whose one conversation already carries a cached display
name. -/
def dbNamed : Db :=
  ⟨[], [], [⟨pgId, usrId, false, some 1, some (("Ada").toList)⟩]⟩

/-- A single-rule rules text with no fallback line. -/
def rulesNoDefault : Str := ("price -> 500tk").toList

/-- The first line of the demo rules. -/
def linePrice : Str := ("price -> 500tk").toList

/-- The second line of the demo rules. -/
def lineHello : Str := ("hello -> Hi!").toList

/-- The fallback line of the demo rules. -/
def lineDefaultDemo : Str :=
  ("default -> I don").toList ++ [apos] ++ ("t understand.").toList

/-- The response of the first demo rule. -/
def resp500 : Str := ("500tk").toList

/-- A rule line whose response text contains the delimiter again. -/
def promoLine : Str := ("promo -> buy 1 -> get 1 free").toList

/-- A line with no delimiter at all. -/
def noDelimLine : Str := ("no delimiter here").toList

/-! ## Helper lemmas -/

theorem any_of_find?_eq_some {α : Type} {l : List α} {p : α → Bool} {c : α}
    (h : l.find? p = some c) : l.any p = true := by
  rcases List.any_eq_true.mpr ⟨c, List.mem_of_find?_eq_some h, List.find?_some h⟩ with h'
  exact h'

theorem updateFirstConv_any (convs : List ConvState) (p u q v : Str)
    (f : ConvState → ConvState) (hf : ∀ c, keyMatch q v (f c) = keyMatch q v c) :
    (updateFirstConv convs p u f).any (keyMatch q v) = convs.any (keyMatch q v) := by
  induction convs with
  | nil => rfl
  | cons c rest ih =>
    unfold updateFirstConv
    cases hc : keyMatch p u c
    · simp only [hc, Bool.false_eq_true, if_false, List.any_cons, ih]
    · simp only [hc, if_true, List.any_cons, hf c]

theorem updateFirstConv_find?_self (convs : List ConvState) (p u : Str)
    (f : ConvState → ConvState) (hf : ∀ c, keyMatch p u (f c) = keyMatch p u c) :
    (updateFirstConv convs p u f).find? (keyMatch p u)
      = (convs.find? (keyMatch p u)).map f := by
  induction convs with
  | nil => rfl
  | cons c rest ih =>
    unfold updateFirstConv
    cases hc : keyMatch p u c
    · rw [if_neg (by simp [hc]), List.find?_cons_of_neg _ (by simp [hc]),
        List.find?_cons_of_neg _ (by simp [hc]), ih]
    · rw [if_pos rfl, List.find?_cons_of_pos _ (by rw [hf c]; exact hc),
        List.find?_cons_of_pos _ hc, Option.map_some']

theorem keyMatch_self (p u : Str) (b : Bool) (li : Option Nat) (nm : Option Str) :
    keyMatch p u ⟨p, u, b, li, nm⟩ = true := by
  simp [keyMatch]

theorem touchConv_any_self (convs : List ConvState) (p u : Str) (ns : Option Str)
    (now : Nat) : (touchConv convs p u ns now).any (keyMatch p u) = true := by
  unfold touchConv
  cases h : convs.find? (keyMatch p u)
  · simp [List.any_append, keyMatch_self]
  · dsimp only
    refine (updateFirstConv_any convs p u p u _ ?_).trans (any_of_find?_eq_some h)
    intro c
    rfl

theorem touchConv_any_mono (convs : List ConvState) (p u q v : Str) (ns : Option Str)
    (now : Nat) (h : convs.any (keyMatch q v) = true) :
    (touchConv convs p u ns now).any (keyMatch q v) = true := by
  unfold touchConv
  cases hf : convs.find? (keyMatch p u)
  · simp [List.any_append, h]
  · dsimp only
    refine (updateFirstConv_any convs p u q v _ ?_).trans h
    intro c
    rfl

theorem touchConv_find?_self (convs : List ConvState) (p u : Str) (ns : Option Str)
    (now : Nat) :
    (touchConv convs p u ns now).find? (keyMatch p u)
      = some (match convs.find? (keyMatch p u) with
              | some c =>
                { c with
                  lastInteraction := some now
                  userName := match ns with | some nm => some nm | none => c.userName }
              | none => ⟨p, u, false, some now, ns⟩) := by
  unfold touchConv
  cases h : convs.find? (keyMatch p u)
  · rw [List.find?_append, h, Option.none_or,
      List.find?_cons_of_pos _ (keyMatch_self p u false (some now) ns)]
  · dsimp only
    refine (updateFirstConv_find?_self convs p u _ ?_).trans ?_
    · intro c
      rfl
    · rw [h]
      rfl

theorem saveMessage_messages (db : Db) (p u s t : Str) (tok nr : Option Str) (now : Nat) :
    (saveMessage db p u s t tok nr now).1.messages = mkMsg p u s t now :: db.messages := rfl

theorem saveMessage_pages (db : Db) (p u s t : Str) (tok nr : Option Str) (now : Nat) :
    (saveMessage db p u s t tok nr now).1.pages = db.pages := rfl

theorem saveMessage_lastTouch (db : Db) (p u s t : Str) (tok nr : Option Str) (now : Nat) :
    lastTouch (saveMessage db p u s t tok nr now).1 p u = some now := by
  unfold lastTouch findConv saveMessage
  dsimp only
  rw [touchConv_find?_self]
  cases h : db.convs.find? (keyMatch p u) <;> rfl

theorem saveMessage_isAiPaused (db : Db) (p u s t : Str) (tok nr : Option Str) (now : Nat) :
    isAiPaused false (saveMessage db p u s t tok nr now).1 p u
      = isAiPaused false db p u := by
  unfold isAiPaused findConv saveMessage
  dsimp only
  rw [touchConv_find?_self]
  cases h : db.convs.find? (keyMatch p u) <;> rfl

theorem saveMessage_convExists_self (db : Db) (p u s t : Str) (tok nr : Option Str)
    (now : Nat) : convExists (saveMessage db p u s t tok nr now).1 p u = true := by
  unfold convExists saveMessage
  dsimp only
  exact touchConv_any_self db.convs p u _ now

theorem saveMessage_convExists_mono (db : Db) (p u s t q v : Str) (tok nr : Option Str)
    (now : Nat) (h : convExists db q v = true) :
    convExists (saveMessage db p u s t tok nr now).1 q v = true := by
  unfold convExists saveMessage
  dsimp only
  exact touchConv_any_mono db.convs p u q v _ now h

theorem saveMessage_inv (db : Db) (p u s t : Str) (tok nr : Option Str) (now : Nat)
    (hinv : dbInv db) : dbInv (saveMessage db p u s t tok nr now).1 := by
  intro q v h
  rw [show msgExists (saveMessage db p u s t tok nr now).1 q v
        = ((mkMsg p u s t now :: db.messages).any (fun m => m.pageId == q && m.userId == v))
      from rfl] at h
  rw [List.any_cons] at h
  rcases Bool.or_eq_true_iff.mp h with h1 | h2
  · rcases Bool.and_eq_true_iff.mp h1 with ⟨hp, hu⟩
    have hp' : p = q := eq_of_beq hp
    have hu' : u = v := eq_of_beq hu
    subst hp'
    subst hu'
    exact saveMessage_convExists_self db p u s t tok nr now
  · exact saveMessage_convExists_mono db p u s t q v tok nr now (hinv q v h2)

theorem genAfterSave_inv (pd : Option PageDoc) (db1 : Db) (p u : Str) (ar : Option Str)
    (so pf : Bool) (now : Nat) (h : dbInv db1) :
    dbInv (genAfterSave pd db1 p u ar so pf now).1 := by
  unfold genAfterSave
  repeat' split
  all_goals first
    | exact h
    | exact saveMessage_inv db1 p u roleAi _ none none now h

theorem genAfterSave_mem (pd : Option PageDoc) (db1 : Db) (p u : Str) (ar : Option Str)
    (so pf : Bool) (now : Nat) (m : MessageRec) (h : m ∈ db1.messages) :
    m ∈ (genAfterSave pd db1 p u ar so pf now).1.messages := by
  unfold genAfterSave
  repeat' split
  all_goals first
    | exact h
    | (rw [saveMessage_messages]; exact List.mem_cons_of_mem _ h)

theorem genAfterSave_lastTouch (pd : Option PageDoc) (db1 : Db) (p u : Str)
    (ar : Option Str) (so pf : Bool) (now : Nat) (h : lastTouch db1 p u = some now) :
    lastTouch (genAfterSave pd db1 p u ar so pf now).1 p u = some now := by
  unfold genAfterSave
  repeat' split
  all_goals first
    | exact h
    | exact saveMessage_lastTouch db1 p u roleAi _ none none now

theorem genAfterSave_paused (pd : Option PageDoc) (db1 : Db) (p u : Str)
    (ar : Option Str) (so pf : Bool) (now : Nat) (h : isAiPaused pf db1 p u = true) :
    genAfterSave pd db1 p u ar so pf now = (db1, []) := by
  unfold genAfterSave
  rw [if_pos h]

theorem kwAfterSave_inv (d : PageDoc) (tok : Option Str) (db1 : Db) (p u m : Str)
    (so pf : Bool) (now : Nat) (h : dbInv db1) :
    dbInv (kwAfterSave d tok db1 p u m so pf now).1 := by
  unfold kwAfterSave
  repeat' split
  all_goals first
    | exact h
    | exact saveMessage_inv db1 p u roleBot _ none none now h

theorem kwAfterSave_mem (d : PageDoc) (tok : Option Str) (db1 : Db) (p u mg : Str)
    (so pf : Bool) (now : Nat) (m : MessageRec) (h : m ∈ db1.messages) :
    m ∈ (kwAfterSave d tok db1 p u mg so pf now).1.messages := by
  unfold kwAfterSave
  repeat' split
  all_goals first
    | exact h
    | (rw [saveMessage_messages]; exact List.mem_cons_of_mem _ h)

theorem kwAfterSave_lastTouch (d : PageDoc) (tok : Option Str) (db1 : Db) (p u mg : Str)
    (so pf : Bool) (now : Nat) (h : lastTouch db1 p u = some now) :
    lastTouch (kwAfterSave d tok db1 p u mg so pf now).1 p u = some now := by
  unfold kwAfterSave
  repeat' split
  all_goals first
    | exact h
    | exact saveMessage_lastTouch db1 p u roleBot _ none none now

theorem kwAfterSave_paused (d : PageDoc) (tok : Option Str) (db1 : Db) (p u mg : Str)
    (so pf : Bool) (now : Nat) (h : isAiPaused pf db1 p u = true) :
    kwAfterSave d tok db1 p u mg so pf now = (db1, []) := by
  unfold kwAfterSave
  rw [if_pos h]

theorem toggleAi_messages (db : Db) (p u : Str) (b : Bool) :
    (toggleAi db p u b).messages = db.messages := by
  unfold toggleAi
  repeat' split
  all_goals rfl

theorem toggleAi_convExists_mono (db : Db) (p u q v : Str) (b : Bool)
    (h : convExists db q v = true) : convExists (toggleAi db p u b) q v = true := by
  unfold convExists at h ⊢
  unfold toggleAi
  split
  · exact h
  · dsimp only
    split
    · refine Eq.trans (updateFirstConv_any db.convs p u q v _ ?_) h
      intro c
      rfl
    · simp [List.any_append, h]

theorem toggleAi_inv (db : Db) (p u : Str) (b : Bool) (h : dbInv db) :
    dbInv (toggleAi db p u b) := by
  intro q v hm
  have hm' : msgExists db q v = true := by
    unfold msgExists at hm ⊢
    rw [toggleAi_messages] at hm
    exact hm
  exact toggleAi_convExists_mono db p u q v b (h q v hm')

theorem upsertPage_messages (db : Db) (i : BVal) (n : Str) (t pe : Option Str) :
    (upsertPage db i n t pe).messages = db.messages := rfl

theorem upsertPage_convs (db : Db) (i : BVal) (n : Str) (t pe : Option Str) :
    (upsertPage db i n t pe).convs = db.convs := rfl

theorem upsertPage_inv (db : Db) (i : BVal) (n : Str) (t pe : Option Str)
    (h : dbInv db) : dbInv (upsertPage db i n t pe) := by
  intro q v hm
  unfold msgExists at hm
  unfold convExists
  rw [upsertPage_messages] at hm
  rw [upsertPage_convs]
  exact h q v hm

theorem adminReply_inv (db : Db) (p u t : Str) (so : Bool) (now : Nat) (h : dbInv db) :
    dbInv (adminReply db p u t so now) := by
  unfold adminReply
  repeat' split
  all_goals first
    | exact h
    | exact saveMessage_inv db p u roleAdmin t none none now h

theorem processGenEvent_inv (db : Db) (p s m : Str) (nr ar : Option Str) (so pf : Bool)
    (now : Nat) (h : dbInv db) : dbInv (processGenEvent db p s m nr ar so pf now).1 := by
  unfold processGenEvent
  split
  · exact h
  · exact genAfterSave_inv _ _ p s ar so pf now
      (saveMessage_inv db p s roleUser m _ nr now h)

theorem processKwEvent_inv (db : Db) (p s m : Str) (nr : Option Str) (so pf : Bool)
    (now : Nat) (h : dbInv db) : dbInv (processKwEvent db p s m nr so pf now).1 := by
  unfold processKwEvent
  repeat' split
  all_goals first
    | exact h
    | exact kwAfterSave_inv _ _ _ p s m so pf now
        (saveMessage_inv db p s roleUser m _ nr now h)

theorem stepOp_inv (db : Db) (op : Op) (h : dbInv db) : dbInv (stepOp db op) := by
  cases op with
  | genEvent p s m nr ar so pf now => exact processGenEvent_inv db p s m nr ar so pf now h
  | kwEvent p s m nr so pf now => exact processKwEvent_inv db p s m nr so pf now h
  | toggle p u b => exact toggleAi_inv db p u b h
  | reply p u t so now => exact adminReply_inv db p u t so now h
  | upsert i n t pe => exact upsertPage_inv db i n t pe h

theorem foldl_inv (ops : List Op) : ∀ db : Db, dbInv db → dbInv (ops.foldl stepOp db) := by
  induction ops with
  | nil => intro db h; exact h
  | cons op rest ih =>
    intro db h
    rw [List.foldl_cons]
    exact ih (stepOp db op) (stepOp_inv db op h)

theorem runOps_inv (ops : List Op) : dbInv (runOps ops) := by
  unfold runOps
  refine foldl_inv ops emptyDb ?_
  intro p u h
  cases h

theorem jsOrStr_truthy (r : Str) (b : Option Str) (h : jsTruthy r = true) :
    jsOrStr (some r) b = some r := by
  unfold jsOrStr
  rw [if_pos (by simp [optTruthy, h])]

theorem scanRules_first_match (m line k r : Str) (lines₂ : List Str)
    (hp : parseRuleLine line = some (k, r)) (hs : isSentinelKw k = false)
    (hi : jsIncludes m k = true) :
    ∀ (lines₁ : List Str) (dflt : Option Str),
      (∀ l ∈ lines₁, lineMatches m l = false) →
      (scanRules m (lines₁ ++ line :: lines₂) dflt).1 = some r := by
  intro lines₁
  induction lines₁ with
  | nil =>
    intro dflt _
    rw [List.nil_append]
    unfold scanRules
    rw [hp]
    dsimp only
    rw [if_neg (by simp [hs]), if_pos hi]
  | cons l ls ih =>
    intro dflt hno
    have hl : lineMatches m l = false := hno l (List.mem_cons_self l ls)
    have hrest : ∀ x ∈ ls, lineMatches m x = false :=
      fun x hx => hno x (List.mem_cons_of_mem l hx)
    rw [List.cons_append]
    unfold scanRules
    cases hpl : parseRuleLine l with
    | none =>
      exact ih dflt hrest
    | some kr =>
      obtain ⟨k', r'⟩ := kr
      dsimp only
      unfold lineMatches at hl
      rw [hpl] at hl
      dsimp only at hl
      cases hsk : isSentinelKw k' with
      | true =>
        rw [if_pos (by simp [hsk])]
        exact ih (some r') hrest
      | false =>
        rw [hsk] at hl
        simp only [Bool.not_false, Bool.true_and] at hl
        rw [if_neg (by simp), if_neg (by simp [hl])]
        exact ih dflt hrest

/-! ## Claims about keyword matching and rule parsing -/

/-- Claim C2 (amended): in keyword mode, the demo rules resolve
`what is the price?` to `500tk` and `xyz` to the declared fallback, and an
input matching no rule with no declared fallback yields no reply. Matching
scans the rule lines top to bottom with case-insensitive substring
containment, and resolves to the first matching rule whose response is
nonempty; the amendment is that when the first matching rule has an
empty response, the scan result is combined with the fallback by
truthiness instead of resolving to that rule (see the counterexample). -/
theorem c2_keyword_matching :
    getKeywordReply msgPriceQ rulesDemo = some resp500
    ∧ getKeywordReply msgXyz rulesDemo = some dontUnderstand
    ∧ (∀ userMsg rulesText : Str,
        jsTruthy rulesText = true →
        scanRules (normMsg userMsg) (jsSplit rulesText [nlChar]) none = (none, none) →
        getKeywordReply userMsg rulesText = none)
    ∧ (∀ userMsg : Str, getKeywordReply userMsg [] = none)
    ∧ (∀ (userMsg rulesText line k r : Str) (lines₁ lines₂ : List Str),
        jsTruthy rulesText = true →
        jsSplit rulesText [nlChar] = lines₁ ++ line :: lines₂ →
        (∀ l ∈ lines₁, lineMatches (normMsg userMsg) l = false) →
        parseRuleLine line = some (k, r) →
        isSentinelKw k = false →
        jsIncludes (normMsg userMsg) k = true →
        jsTruthy r = true →
        getKeywordReply userMsg rulesText = some r) := by
  refine ⟨by decide, by decide, ?_, ?_, ?_⟩
  · intro um rt h1 h2
    unfold getKeywordReply
    rw [if_neg (by simp [h1])]
    dsimp only
    rw [h2]
    rfl
  · intro um
    rfl
  · intro um rt line k r l1 l2 h1 h2 h3 h4 h5 h6 h7
    unfold getKeywordReply
    rw [if_neg (by simp [h1])]
    dsimp only
    rw [h2, scanRules_first_match (normMsg um) line k r l2 h4 h5 h6 l1 none h3]
    exact jsOrStr_truthy r _ h7

/-- Witness for C2: the general conjuncts applied at concrete inputs —
`xyz` against a single-rule text with no fallback yields no reply, and
`what is the price?` resolves to the first matching rule of the demo
rules. -/
theorem c2_keyword_matching_witness :
    getKeywordReply msgXyz rulesNoDefault = none
    ∧ getKeywordReply msgPriceQ rulesDemo = some resp500 := by
  constructor
  · exact c2_keyword_matching.2.2.1 msgXyz rulesNoDefault (by decide) (by decide)
  · exact c2_keyword_matching.2.2.2.2 msgPriceQ rulesDemo linePrice (("price").toList)
      resp500 [] [lineHello, lineDefaultDemo] (by decide) (by decide) (by decide)
      (by decide) (by decide) (by decide) (by decide)

/-- Counterexample for C2 as stated: with rules `default -> D` then
`a -> ` (empty response) and input `a`, a rule does match (its keyword is
contained and its response is the empty string), yet the resolved reply
is the fallback `D`, not the matched rule's response — so matching does
not always resolve to the first matching rule, and the fallback is not
used only when no rule matches. -/
theorem c2_counterexample :
    lineMatches (normMsg msgA) (("a -> ").toList) = true
    ∧ (scanRules (normMsg msgA) (jsSplit rulesDefaultFirst [nlChar]) none).1 = some []
    ∧ getKeywordReply msgA rulesDefaultFirst = some (("D").toList)
    ∧ (("D").toList : Str) ≠ ([] : Str) := by decide

/-- Claim C8: a rule line splits on the first delimiter occurrence only,
with later occurrences rejoined into the response
(`promo -> buy 1 -> get 1 free` gives keyword `promo` and response
`buy 1 -> get 1 free`), and lines with fewer than one delimiter are
skipped, both by the parser (which yields nothing for them) and by the
scanning loop (which leaves its state unchanged on them). -/
theorem c8_rule_parsing :
    parseRuleLine promoLine = some (("promo").toList, ("buy 1 -> get 1 free").toList)
    ∧ (∀ line : Str, (jsSplit line arrowDelim).length < 2 → parseRuleLine line = none)
    ∧ (∀ (msg line : Str) (rest : List Str) (dflt : Option Str),
        parseRuleLine line = none →
        scanRules msg (line :: rest) dflt = scanRules msg rest dflt) := by
  refine ⟨by decide, ?_, ?_⟩
  · intro line h
    unfold parseRuleLine
    cases hs : jsSplit line arrowDelim with
    | nil => rfl
    | cons p0 tail =>
      cases tail with
      | nil => rfl
      | cons p1 ps =>
        exfalso
        rw [hs] at h
        simp only [List.length_cons] at h
        omega
  · intro msg line rest dflt h
    simp only [scanRules]
    rw [h]

/-- Witness for C8: the skipping conjuncts applied to a line with no
delimiter. -/
theorem c8_rule_parsing_witness :
    (jsSplit noDelimLine arrowDelim).length < 2
    ∧ parseRuleLine noDelimLine = none
    ∧ scanRules ([] : Str) [noDelimLine] none = scanRules ([] : Str) [] none := by
  refine ⟨by decide, c8_rule_parsing.2.1 noDelimLine (by decide), ?_⟩
  exact c8_rule_parsing.2.2 [] noDelimLine [] none
    (c8_rule_parsing.2.1 noDelimLine (by decide))

/-- Claim C9 (amended): when the scan of the rules ends with a matched
response that trims to the empty string and a fallback that was declared
before the matching rule, the empty match is combined with the fallback by
truthiness and the fallback is returned. The amendment restricts the
claim to fallbacks declared above the matching rule: the scanning loop
breaks at the first match, so a fallback declared below it is never seen
(see the counterexample). -/
theorem c9_empty_match_fallback :
    (∀ (userMsg rulesText d : Str),
      jsTruthy rulesText = true →
      scanRules (normMsg userMsg) (jsSplit rulesText [nlChar]) none = (some [], some d) →
      getKeywordReply userMsg rulesText = some d)
    ∧ getKeywordReply msgHiThere rulesFallbackFirst = some (("Fallback").toList) := by
  constructor
  · intro um rt d h1 h2
    unfold getKeywordReply
    rw [if_neg (by simp [h1])]
    dsimp only
    rw [h2]
    rfl
  · decide

/-- Witness for C9: the general conjunct applied to rules declaring the
fallback before an empty-response rule matched by `hi there`. -/
theorem c9_empty_match_fallback_witness :
    getKeywordReply msgHiThere rulesFallbackFirst = some (("Fallback").toList) :=
  c9_empty_match_fallback.1 msgHiThere rulesFallbackFirst (("Fallback").toList)
    (by decide) (by decide)

/-- Counterexample for C9 as stated: with rules `hi -> ` (empty response)
followed by `default -> Fallback` and input `hi there`, the rules do
declare a fallback and an earlier rule does match with an empty response,
yet the result is no reply at all rather than the fallback, because the
loop breaks before reaching the fallback line. -/
theorem c9_counterexample :
    (jsSplit rulesDefaultLast [nlChar]).any (fun l =>
        match parseRuleLine l with
        | some kv => isSentinelKw kv.1
        | none => false) = true
    ∧ lineMatches (normMsg msgHiThere) (("hi -> ").toList) = true
    ∧ (scanRules (normMsg msgHiThere) (jsSplit rulesDefaultLast [nlChar]) none).1 = some []
    ∧ getKeywordReply msgHiThere rulesDefaultLast = none := by decide

/-! ## Claims about the page registry -/

theorem updateFirstPage_find?_self (pages : List PageDoc) (v : BVal)
    (f : PageDoc → PageDoc) (hf : ∀ d, (f d).pid = d.pid) :
    (updateFirstPage pages v f).find? (fun d => d.pid == v)
      = (pages.find? (fun d => d.pid == v)).map f := by
  induction pages with
  | nil => rfl
  | cons d rest ih =>
    unfold updateFirstPage
    cases hd : d.pid == v
    · rw [if_neg (by simp [hd])]
      simp only [List.find?_cons, hd]
      exact ih
    · rw [if_pos rfl]
      simp only [List.find?_cons, hf d, hd]
      rfl

/-- Claim C6: page lookup tolerates mixed identifier types — an exact
string-typed match is attempted first and always wins when it exists; on
a string miss with an all-digits identifier, the numeric-typed match is
used; in particular the page stored under the numeric identifier
100200300 is found by the string query `100200300`. -/
theorem c6_page_lookup :
    (∀ (db : Db) (s : Str) (d : PageDoc),
        findPage db (BVal.str s) = some d → getPageData db s = some d)
    ∧ (∀ (db : Db) (s : Str),
        findPage db (BVal.str s) = none → isAllDigits s = true →
        getPageData db s = findPage db (BVal.num (parseDigits s)))
    ∧ getPageData dbNumKeyed bigNumStr
        = some ⟨BVal.num 100200300, ("Shop").toList, some tokStr, none, none⟩ := by
  refine ⟨?_, ?_, by decide⟩
  · intro db s d h
    unfold getPageData
    rw [h]
  · intro db s h1 h2
    unfold getPageData
    rw [h1]
    dsimp only
    rw [if_pos h2]

/-- Witness for C6: a string-keyed page is found directly, and for the
numeric-keyed registry the lookup equals the numeric-typed query. -/
theorem c6_page_lookup_witness :
    getPageData dbPageOnly pgId
      = some ⟨BVal.str pgId, ("Shop").toList, some tokStr, none, some rulesDemo⟩
    ∧ getPageData dbNumKeyed bigNumStr
      = findPage dbNumKeyed (BVal.num (parseDigits bigNumStr)) := by
  constructor
  · exact c6_page_lookup.1 dbPageOnly pgId
      ⟨BVal.str pgId, ("Shop").toList, some tokStr, none, some rulesDemo⟩ (by decide)
  · exact c6_page_lookup.2.1 dbNumKeyed bigNumStr (by decide) (by decide)

/-- Claim C7 (amended): the page-registry write is keyed by the string
canonical form of the submitted identifier, so a fresh insert stores the
identifier as a string, and an update of a string-keyed record keeps it a
string and leaves omitted credential and reply-config fields unchanged;
the revision in src/unnamed/part_001 always writes under the string key.
The amendment is that the src/index.js write, when only a legacy
numeric-keyed record exists, deliberately updates that record through the
numeric filter and leaves its identifier numeric (see the
counterexample), so not every call leaves a string-form identifier. -/
theorem c7_upsert_page :
    (∀ (db : Db) (ident : BVal) (name : Str) (token persona : Option Str),
        findPage db (BVal.str (bvalToStr ident)) = none →
        (isAllDigits (bvalToStr ident) = true →
          findPage db (BVal.num (parseDigits (bvalToStr ident))) = none) →
        (upsertPage db ident name token persona).pages
          = db.pages ++ [freshPageDoc (BVal.str (bvalToStr ident)) name token persona])
    ∧ (∀ (db : Db) (ident : BVal) (name : Str) (d : PageDoc),
        findPage db (BVal.str (bvalToStr ident)) = some d →
        findPage (upsertPage db ident name none none) (BVal.str (bvalToStr ident))
          = some { d with pageName := name })
    ∧ (∀ (db : Db) (ident : BVal) (name : Str) (token persona : Option Str),
        findPage db (BVal.str (bvalToStr ident)) = none →
        (upsertPageStrKey db ident name token persona).pages
          = db.pages ++ [freshPageDoc (BVal.str (bvalToStr ident)) name token persona]) := by
  refine ⟨?_, ?_, ?_⟩
  · intro db ident name token persona h1 h2
    unfold upsertPage
    dsimp only
    rw [h1]
    cases hd : isAllDigits (bvalToStr ident)
    · rw [if_neg (by simp)]
      rw [h1]
    · rw [if_pos rfl, h2 hd]
      rw [h1]
  · intro db ident name d h
    unfold upsertPage
    dsimp only
    rw [h]
    dsimp only
    rw [h]
    dsimp only
    unfold findPage
    dsimp only
    rw [updateFirstPage_find?_self db.pages (BVal.str (bvalToStr ident))
      (fun x => pageUpdateFields x name none none) (fun x => rfl)]
    rw [show List.find? (fun x => x.pid == BVal.str (bvalToStr ident)) db.pages
          = some d from h]
    rfl
  · intro db ident name token persona h1
    unfold upsertPageStrKey
    dsimp only
    rw [h1]

/-- Witness for C7: a fresh insert with a numeric submitted identifier
stores the string canonical form, and updating a string-keyed page with
omitted credential and reply-config leaves those fields unchanged. -/
theorem c7_upsert_page_witness :
    (upsertPage emptyDb (BVal.num 100) (("New").toList) none none).pages
      = [freshPageDoc (BVal.str (("100").toList)) (("New").toList) none none]
    ∧ findPage (upsertPage dbPageOnly (BVal.str pgId) (("New").toList) none none)
        (BVal.str pgId)
      = some ⟨BVal.str pgId, ("New").toList, some tokStr, none, some rulesDemo⟩ := by
  constructor
  · rw [c7_upsert_page.1 emptyDb (BVal.num 100) (("New").toList) none none (by decide)
      (fun _ => by decide)]
    decide
  · exact c7_upsert_page.2.1 dbPageOnly (BVal.str pgId) (("New").toList)
      ⟨BVal.str pgId, ("Shop").toList, some tokStr, none, some rulesDemo⟩ (by decide)

/-- Counterexample for C7 as stated: with only a legacy record keyed by
the numeric identifier 100 in the registry, the src/index.js write for
identifier `100` updates that record in place — afterwards no record
carries the string identifier `100`, contradicting that every call
persists the string canonical form. -/
theorem c7_counterexample :
    (upsertPage dbLegacy (BVal.str (("100").toList)) (("New").toList) none none).pages
      = [⟨BVal.num 100, ("New").toList, some tokStr, none, some promptStr⟩]
    ∧ ∀ d ∈ (upsertPage dbLegacy (BVal.str (("100").toList)) (("New").toList)
        none none).pages, d.pid ≠ BVal.str (("100").toList) := by decide

/-! ## Claims about the webhook pipelines and conversation state -/

/-- Claim C1 (amended): for every inbound messaging event whose sender
differs from the page, the generative pipeline (src/index.js) persists
the inbound message with role `user` and touches the conversation state,
regardless of registry contents, credential, pause outcome or reply
decision; the keyword pipeline (src/unnamed/part_003) does the same
provided the page is found in the registry. The amendment adds that
proviso: the keyword pipeline drops events for unknown pages before
persisting anything (see the counterexample). -/
theorem c1_inbound_persistence :
    (∀ (db : Db) (p u m : Str) (nr ar : Option Str) (so pf : Bool) (now : Nat),
        u ≠ p →
        mkMsg p u roleUser m now
            ∈ (processGenEvent db p u m nr ar so pf now).1.messages
        ∧ lastTouch (processGenEvent db p u m nr ar so pf now).1 p u = some now)
    ∧ (∀ (db : Db) (p u m : Str) (nr : Option Str) (so pf : Bool) (now : Nat)
        (d : PageDoc),
        u ≠ p →
        getPageData db p = some d →
        mkMsg p u roleUser m now
            ∈ (processKwEvent db p u m nr so pf now).1.messages
        ∧ lastTouch (processKwEvent db p u m nr so pf now).1 p u = some now) := by
  constructor
  · intro db p u m nr ar so pf now hne
    unfold processGenEvent
    rw [if_neg (by simp [hne])]
    constructor
    · apply genAfterSave_mem
      rw [saveMessage_messages]
      exact List.mem_cons_self _ _
    · apply genAfterSave_lastTouch
      exact saveMessage_lastTouch db p u roleUser m _ nr now
  · intro db p u m nr so pf now d hne hpd
    unfold processKwEvent
    rw [if_neg (by simp [hne]), hpd]
    constructor
    · apply kwAfterSave_mem
      rw [saveMessage_messages]
      exact List.mem_cons_self _ _
    · apply kwAfterSave_lastTouch
      exact saveMessage_lastTouch db p u roleUser m _ nr now

/-- Witness for C1: both pipelines applied to concrete events — the
generative one on an empty registry (page unknown, no credential), the
keyword one on a registered page. -/
theorem c1_inbound_persistence_witness :
    mkMsg pgId usrId roleUser msgHi 3
        ∈ (processGenEvent emptyDb pgId usrId msgHi none none false false 3).1.messages
    ∧ lastTouch (processGenEvent emptyDb pgId usrId msgHi none none false false 3).1
        pgId usrId = some 3
    ∧ mkMsg pgId usrId roleUser msgHi 4
        ∈ (processKwEvent dbPageOnly pgId usrId msgHi none false false 4).1.messages := by
  have h1 := c1_inbound_persistence.1 emptyDb pgId usrId msgHi none none false false 3
    (by decide)
  have h2 := c1_inbound_persistence.2 dbPageOnly pgId usrId msgHi none false false 4
    ⟨BVal.str pgId, ("Shop").toList, some tokStr, none, some rulesDemo⟩
    (by decide) (by decide)
  exact ⟨h1.1, h1.2, h2.1⟩

/-- Counterexample for C1 as stated: in the keyword pipeline an inbound
event from a genuine user is dropped without persisting anything when the
page is not in the registry, so persistence is not unconditional. -/
theorem c1_counterexample :
    usrId ≠ pgId
    ∧ getPageData emptyDb pgId = none
    ∧ (processKwEvent emptyDb pgId usrId msgHi none true false 7).1 = emptyDb
    ∧ msgExists (processKwEvent emptyDb pgId usrId msgHi none true false 7).1
        pgId usrId = false := by decide

/-- Claim C5: an inbound message arriving while the conversation is
paused is still logged and the state still touched, but no automated
reply is attempted, in the generative pipeline unconditionally and in the
keyword pipeline for any registered page, whatever its configured reply
text. -/
theorem c5_pause_gating :
    (∀ (db : Db) (p u m : Str) (nr ar : Option Str) (so : Bool) (now : Nat),
        u ≠ p →
        isAiPaused false db p u = true →
        (processGenEvent db p u m nr ar so false now).1.messages
            = mkMsg p u roleUser m now :: db.messages
        ∧ lastTouch (processGenEvent db p u m nr ar so false now).1 p u = some now
        ∧ (processGenEvent db p u m nr ar so false now).2 = [])
    ∧ (∀ (db : Db) (p u m : Str) (nr : Option Str) (so : Bool) (now : Nat)
        (d : PageDoc),
        u ≠ p →
        isAiPaused false db p u = true →
        getPageData db p = some d →
        (processKwEvent db p u m nr so false now).1.messages
            = mkMsg p u roleUser m now :: db.messages
        ∧ lastTouch (processKwEvent db p u m nr so false now).1 p u = some now
        ∧ (processKwEvent db p u m nr so false now).2 = []) := by
  constructor
  · intro db p u m nr ar so now hne hp
    unfold processGenEvent
    rw [if_neg (by simp [hne])]
    rw [genAfterSave_paused _ _ p u ar so false now
      ((saveMessage_isAiPaused db p u roleUser m _ nr now).trans hp)]
    exact ⟨saveMessage_messages db p u roleUser m _ nr now,
           saveMessage_lastTouch db p u roleUser m _ nr now, rfl⟩
  · intro db p u m nr so now d hne hp hpd
    unfold processKwEvent
    rw [if_neg (by simp [hne]), hpd]
    dsimp only
    rw [kwAfterSave_paused d _ _ p u m so false now
      ((saveMessage_isAiPaused db p u roleUser m _ nr now).trans hp)]
    exact ⟨saveMessage_messages db p u roleUser m _ nr now,
           saveMessage_lastTouch db p u roleUser m _ nr now, rfl⟩

/-- Witness for C5: a concretely paused conversation on a registered page
with a credential, an available generation result and a working send
channel still yields no outbound send in either pipeline. -/
theorem c5_pause_gating_witness :
    (processGenEvent dbPaused pgId usrId msgHi none (some msgHi) true false 9).1.messages
        = [mkMsg pgId usrId roleUser msgHi 9]
    ∧ (processGenEvent dbPaused pgId usrId msgHi none (some msgHi) true false 9).2 = []
    ∧ (processKwEvent dbPaused pgId usrId msgPriceQ none true false 9).2 = [] := by
  have h1 := c5_pause_gating.1 dbPaused pgId usrId msgHi none (some msgHi) true 9
    (by decide) (by decide)
  have h2 := c5_pause_gating.2 dbPaused pgId usrId msgPriceQ none true 9
    ⟨BVal.str pgId, ("Shop").toList, some tokStr, none, some rulesDemo⟩
    (by decide) (by decide) (by decide)
  exact ⟨h1.1, h1.2.2, h2.2.2⟩

/-- Claim C10: if the state lookup inside `isAiPaused` throws, the catch
clause returns false and no error propagates to the caller; consequently
a conversation whose stored pause flag is true is treated as active for
that message and the generative reply path proceeds to attempt a
dispatch. -/
theorem c10_ispaused_error :
    (∀ (db : Db) (p u : Str), isAiPaused true db p u = false)
    ∧ (∀ (db : Db) (p u m : Str) (nr : Option Str) (so : Bool) (now : Nat)
        (d : PageDoc) (rep : Str),
        u ≠ p →
        isAiPaused false db p u = true →
        getPageData db p = some d →
        optTruthy d.accessToken = true →
        (processGenEvent db p u m nr (some rep) so true now).2 = [(u, rep)]) := by
  constructor
  · intro db p u
    rfl
  · intro db p u m nr so now d rep hne hp hpd htok
    unfold processGenEvent
    rw [if_neg (by simp [hne])]
    unfold genAfterSave
    rw [if_neg (by simp [isAiPaused]), hpd]
    dsimp only
    rw [if_neg (by simp [htok])]
    cases so <;> rfl

/-- Witness for C10: the paused conversation of the concrete database is
treated as active under a failing lookup, and the reply is dispatched. -/
theorem c10_ispaused_error_witness :
    isAiPaused true dbPaused pgId usrId = false
    ∧ (processGenEvent dbPaused pgId usrId msgHi none (some msgHi) true true 9).2
        = [(usrId, msgHi)] := by
  constructor
  · exact c10_ispaused_error.1 dbPaused pgId usrId
  · exact c10_ispaused_error.2 dbPaused pgId usrId msgHi none true 9
      ⟨BVal.str pgId, ("Shop").toList, some tokStr, none, some rulesDemo⟩ msgHi
      (by decide) (by decide) (by decide) (by decide)

/-- Claim C4 (amended): once a truthy display name is cached on the
conversation state, a subsequent inbound save performs no name lookup,
and a failed fetch does not block persistence — the message is still
inserted and the state still touched. The amendment drops the claim that
the lookup happens at most once over the conversation lifetime: after a
failed fetch nothing is cached, so the next inbound message attempts the
lookup again (see the counterexample). -/
theorem c4_name_fetch :
    (∀ (db : Db) (p u t : Str) (tok nr : Option Str) (now : Nat) (st : ConvState)
        (nm : Str),
        findConv db p u = some st →
        st.userName = some nm →
        jsTruthy nm = true →
        (saveMessage db p u roleUser t tok nr now).2 = false)
    ∧ (∀ (db : Db) (p u t : Str) (tok : Option Str) (now : Nat),
        (saveMessage db p u roleUser t tok none now).1.messages
            = mkMsg p u roleUser t now :: db.messages
        ∧ lastTouch (saveMessage db p u roleUser t tok none now).1 p u = some now) := by
  constructor
  · intro db p u t tok nr now st nm hfc hnm htr
    unfold findConv at hfc
    unfold saveMessage
    dsimp only
    rw [hfc]
    simp [optTruthy, hnm, htr]
  · intro db p u t tok now
    exact ⟨saveMessage_messages db p u roleUser t tok none now,
           saveMessage_lastTouch db p u roleUser t tok none now⟩

/-- Witness for C4: with a cached name no lookup is attempted, and a save
whose fetch oracle fails still appends the message. -/
theorem c4_name_fetch_witness :
    (saveMessage dbNamed pgId usrId roleUser msgAgain (some tokStr) none 2).2 = false
    ∧ (saveMessage emptyDb pgId usrId roleUser msgHi (some tokStr) none 1).1.messages
        = [mkMsg pgId usrId roleUser msgHi 1] := by
  constructor
  · exact c4_name_fetch.1 dbNamed pgId usrId msgAgain (some tokStr) none 2
      ⟨pgId, usrId, false, some 1, some (("Ada").toList)⟩ (("Ada").toList)
      (by decide) (by decide) (by decide)
  · have h := c4_name_fetch.2 emptyDb pgId usrId msgHi (some tokStr) 1
    rw [h.1]
    rfl

/-- Counterexample for C4 as stated: with a credential present and the
external fetch failing, the first inbound save attempts the lookup and
caches nothing, and the second inbound save for the same pair attempts
the lookup again — more than one attempt in the conversation lifetime. -/
theorem c4_counterexample :
    (saveMessage emptyDb pgId usrId roleUser msgHi (some tokStr) none 1).2 = true
    ∧ (saveMessage (saveMessage emptyDb pgId usrId roleUser msgHi (some tokStr) none 1).1
        pgId usrId roleUser msgAgain (some tokStr) none 2).2 = true := by decide

/-- Claim C3 (amended): at every state reachable from the empty database
by the state-mutating operations of the service, if at least one message
record exists for a (page, user) pair then a conversation-state record
exists for that pair. The amendment drops the converse direction of the
claimed equivalence: the pause-toggle endpoint upserts a conversation
state without writing any message record (see the counterexample). -/
theorem c3_message_implies_state (ops : List Op) (p u : Str)
    (h : msgExists (runOps ops) p u = true) : convExists (runOps ops) p u = true :=
  runOps_inv ops p u h

/-- Witness for C3: a one-event run that logs a message indeed has a
conversation state for the pair. -/
theorem c3_message_implies_state_witness :
    msgExists (runOps [Op.genEvent pgId usrId msgHi none none false false 3])
        pgId usrId = true
    ∧ convExists (runOps [Op.genEvent pgId usrId msgHi none none false false 3])
        pgId usrId = true :=
  ⟨by decide,
   c3_message_implies_state [Op.genEvent pgId usrId msgHi none none false false 3]
     pgId usrId (by decide)⟩

/-- Counterexample for C3 as stated: one pause-toggle request on a fresh
pair reaches a state with a conversation-state record but no message
record, refuting the if-and-only-if. -/
theorem c3_counterexample :
    convExists (runOps [Op.toggle pgId usrId true]) pgId usrId = true
    ∧ msgExists (runOps [Op.toggle pgId usrId true]) pgId usrId = false := by decide
